import Mathlib

/-!
# StringInspect: a shallow embedding of `src/stringinspect.c`

The program is a small CLI tool.  `print_character_analysis` walks the
argument string with `strlen`/indexing and prints four rows (ASCII, Hex,
Dec, Bin); `main` dispatches on `argv[1]` between `-h`/`--help`,
`-v`/`--version`, and the analysis path, and errors when `argc < 2`.

Modelling decisions, all taken from the C source:
* A byte of the argument string is a `Nat` in `0 … 255`.
* `char` is signed (the mainstream `x86-64`/gcc ABI): indexing
  `input[i]` and passing it to a variadic function promotes it to `int`,
  modelled by `charPromote`, which sign-extends values `128 … 255`.
* `%X` reinterprets that `int` as a 32-bit unsigned value
  (`toUnsigned32`); `%d` prints it signed; the binary loop uses the
  arithmetic right shift (`Int.fdiv` by a power of two) and masks with
  `& 1` (`Int.emod 2`), exactly as `(input[i] >> b) & 1` does.
* `strlen` stops at the first zero byte, so the formatter only ever sees
  the longest zero-free front segment of its buffer (`cstr`).
* `main` is modelled by `dispatch` (the pure decision on the argument
  vector `argv[1:]`) and `exec` (producing the full standard-output text
  and the exit code); the Formatter runs exactly on `Action.analyze`.
-/

namespace StringInspect

/-- The value of `input[i]` after C's integer promotion of a signed
`char` holding byte `b`: bytes `128 … 255` sign-extend to negatives. -/
def charPromote (b : Nat) : Int :=
  if b < 128 then (b : Int) else (b : Int) - 256

/-- `%X` reinterprets the promoted `int` as a 32-bit unsigned value. -/
def toUnsigned32 (v : Int) : Nat :=
  (v.emod (2 ^ 32)).toNat

/-- Decimal digit character, `0 ↦ '0'`, …, `9 ↦ '9'`. -/
def decDigitChar (n : Nat) : Char :=
  Char.ofNat (48 + n)

/-- Uppercase hexadecimal digit character, as printed by `%X`. -/
def hexDigitChar (n : Nat) : Char :=
  if n < 10 then Char.ofNat (48 + n) else Char.ofNat (55 + n)

/-- Digits of `n` in base `base`, most significant first; the empty list
for `n = 0`.  `fuel` dominates the number of divisions. -/
def natDigitsAux (base : Nat) (dchar : Nat → Char) : Nat → Nat → List Char
  | 0, _ => []
  | fuel + 1, n =>
      if n = 0 then []
      else natDigitsAux base dchar fuel (n / base) ++ [dchar (n % base)]

/-- The digit string printed by `printf` for a nonnegative value:
at least one digit, most significant first. -/
def natToBase (base : Nat) (dchar : Nat → Char) (n : Nat) : List Char :=
  if n = 0 then [dchar 0] else natDigitsAux base dchar (n + 1) n

/-- Right-alignment in a field of width `w`, space padded, as the
width-8 conversions `%8c`, `%8X`, `%8d` do. -/
def padLeft (w : Nat) (l : List Char) : List Char :=
  List.replicate (w - l.length) ' ' ++ l

/-- Token of one byte in the ASCII row: `%8c` on the raw byte. -/
def asciiToken (b : Nat) : String :=
  String.mk (padLeft 8 [Char.ofNat b])

/-- Token of one byte in the hex row: `%8X` on the promoted `char`. -/
def hexToken (b : Nat) : String :=
  String.mk (padLeft 8 (natToBase 16 hexDigitChar (toUnsigned32 (charPromote b))))

/-- Token of one byte in the decimal row: `%8d` on the promoted `char`. -/
def decToken (b : Nat) : String :=
  String.mk (padLeft 8
    (if charPromote b < 0 then
        '-' :: natToBase 10 decDigitChar (-(charPromote b)).toNat
      else natToBase 10 decDigitChar (charPromote b).toNat))

/-- The bit `(v >> k) & 1` of a promoted `char`: C's right shift on a
negative `int` is arithmetic, i.e. flooring division by `2 ^ k`. -/
def cBit (v : Int) (k : Nat) : Nat :=
  ((v.fdiv (2 ^ k)).emod 2).toNat

/-- Token of one byte in the binary row: the inner loop prints the bits
`(input[i] >> b) & 1` for `b = 7` down to `0`. -/
def binToken (b : Nat) : String :=
  String.mk ((List.range 8).map (fun i => decDigitChar (cBit (charPromote b) (7 - i))))

/-- `strlen` semantics: the bytes of the buffer before the first zero
byte are the string the formatter iterates over. -/
def cstr : List Nat → List Nat
  | [] => []
  | b :: t => if b = 0 then [] else b :: cstr t

/-- The ASCII-row tokens of the input. -/
def asciiTokens (s : List Nat) : List String :=
  (cstr s).map asciiToken

/-- The hex-row tokens of the input. -/
def hexTokens (s : List Nat) : List String :=
  (cstr s).map hexToken

/-- The decimal-row tokens of the input. -/
def decTokens (s : List Nat) : List String :=
  (cstr s).map decToken

/-- The binary-row tokens of the input. -/
def binTokens (s : List Nat) : List String :=
  (cstr s).map binToken

/-- One output row: its label followed, for each token, by a tab and
the token (each loop iteration prints `"\t"` then the field). -/
def rowString (label : String) (toks : List String) : String :=
  label ++ String.join (toks.map (fun t => "\t" ++ t))

/-- `print_character_analysis`: the four rows, each terminated by the
newline the source prints before the next label (or at the end). -/
def print_character_analysis (input : List Nat) : String :=
  rowString "ASCII:" (asciiTokens input) ++ "\n" ++
  rowString "Hex:" (hexTokens input) ++ "\n" ++
  rowString "Dec:" (decTokens input) ++ "\n" ++
  rowString "Bin:" (binTokens input) ++ "\n"

/-- `%s` output of an argument buffer. -/
def echo (s : List Nat) : String :=
  String.mk ((cstr s).map Char.ofNat)

/-- Bytes of `"-h"`. -/
def hFlagB : List Nat := [45, 104]

/-- Bytes of `"--help"`. -/
def helpFlagB : List Nat := [45, 45, 104, 101, 108, 112]

/-- Bytes of `"-v"`. -/
def vFlagB : List Nat := [45, 118]

/-- Bytes of `"--version"`. -/
def versionFlagB : List Nat := [45, 45, 118, 101, 114, 115, 105, 111, 110]

/-- Output of `print_help`. -/
def helpText : String :=
  "StringInspect CLI Tool\nUsage:\n  stringinspect [OPTIONS] <string>\n\nOptions:\n  -h, --help       Show this help message\n  -v, --version    Show version information\n\nDescription:\n  This tool inspects ASCII, Hex, Decimal, and Binary representations of each character in the provided string.\n\nExamples:\n  stringinspect \"Hello\"\n  stringinspect -h\n  stringinspect --version\n"

/-- Output of `print_version`. -/
def versionText : String :=
  "StringInspect version 1.0.0\n"

/-- The terminal action `main` selects from the argument vector. -/
inductive Action where
  | help : Action
  | version : Action
  | analyze : List Nat → Action
  | usage : Action
deriving DecidableEq, Repr

/-- The decision `main` takes on `argv[1:]`: `argc < 2` is the usage
error; otherwise only `argv[1]` is inspected, first against the help
spellings, then the version spellings, else it is the analysis target. -/
def dispatch (args : List (List Nat)) : Action :=
  match args with
  | [] => Action.usage
  | a :: _ =>
      if a = hFlagB ∨ a = helpFlagB then Action.help
      else if a = vFlagB ∨ a = versionFlagB then Action.version
      else Action.analyze a

/-- The output text and exit code of each terminal action of `main`. -/
def exec : Action → String × Nat
  | Action.usage => ("Please pass an argument\n", 1)
  | Action.help => (helpText, 0)
  | Action.version => (versionText, 0)
  | Action.analyze a =>
      ("Input string: \"" ++ echo a ++ "\"\n" ++ print_character_analysis a, 0)

/-- The whole program: standard output and exit code of `main` run on
the positional arguments `argv[1:]`. -/
def run (args : List (List Nat)) : String × Nat :=
  exec (dispatch args)

/-! ## Parsing the printed tokens (formalising "parsed as base …") -/

/-- Value of a hexadecimal digit character. -/
def hexDigitVal (c : Char) : Option Nat :=
  if 48 ≤ c.toNat ∧ c.toNat ≤ 57 then some (c.toNat - 48)
  else if 65 ≤ c.toNat ∧ c.toNat ≤ 70 then some (c.toNat - 55)
  else none

/-- Value of a decimal digit character. -/
def decDigitVal (c : Char) : Option Nat :=
  if 48 ≤ c.toNat ∧ c.toNat ≤ 57 then some (c.toNat - 48) else none

/-- Value of a binary digit character. -/
def binDigitVal (c : Char) : Option Nat :=
  if c = '0' then some 0 else if c = '1' then some 1 else none

/-- Parse a nonempty digit string in base `base`; `none` on a non-digit
or an empty string. -/
def parseDigits (base : Nat) (digVal : Char → Option Nat) (cs : List Char) : Option Nat :=
  if cs.isEmpty then none
  else
    cs.foldl
      (fun acc c =>
        match acc, digVal c with
        | some a, some d => some (base * a + d)
        | _, _ => none)
      (some 0)

/-- A printed field without its left padding. -/
def trimTok (s : String) : List Char :=
  s.toList.dropWhile (fun c => c = ' ')

/-- A hex-row token parsed as hexadecimal. -/
def parseHexTok (s : String) : Option Nat :=
  parseDigits 16 hexDigitVal (trimTok s)

/-- A decimal-row token parsed as base 10 (with an optional sign, since
`%d` may print one). -/
def parseDecTok (s : String) : Option Int :=
  match trimTok s with
  | '-' :: cs => (parseDigits 10 decDigitVal cs).map (fun n => -(n : Int))
  | cs => (parseDigits 10 decDigitVal cs).map (fun n => (n : Int))

/-- A binary-row token parsed as base 2. -/
def parseBinTok (s : String) : Option Nat :=
  parseDigits 2 binDigitVal s.toList

/-! ## Helper lemmas -/

/-- `strlen` sees the whole buffer when no byte is zero. -/
theorem cstr_eq_self (s : List Nat) (h : 0 ∉ s) : cstr s = s := by
  induction s with
  | nil => rfl
  | cons a t ih =>
      have ha : a ≠ 0 := by intro e; exact h (by simp [e])
      have ht : 0 ∉ t := by intro m; exact h (by simp [m])
      simp [cstr, ha, ih ht]

/-- `strlen` stops at the first zero byte of the buffer. -/
theorem cstr_append_zero (xs ys : List Nat) (h : 0 ∉ xs) :
    cstr (xs ++ 0 :: ys) = xs := by
  induction xs with
  | nil => simp [cstr]
  | cons a t ih =>
      have ha : a ≠ 0 := by intro e; exact h (by simp [e])
      have ht : 0 ∉ t := by intro m; exact h (by simp [m])
      simp [cstr, ha, ih ht]

set_option maxRecDepth 8192 in
/-- For a byte value, the binary token of the code (arithmetic shift of
the sign-extended `char`, masked with `& 1`) is exactly the 8 bits of
the unsigned byte, most significant first. -/
theorem binToken_eq_bits : ∀ b, b < 256 →
    binToken b =
      String.mk ((List.range 8).map (fun i => if Nat.testBit b (7 - i) then '1' else '0')) := by
  decide

set_option maxRecDepth 8192 in
/-- Each binary token is 8 characters long, all of them binary digits. -/
theorem binToken_digits : ∀ b, b < 256 →
    (binToken b).toList.length = 8 ∧ ∀ c ∈ (binToken b).toList, c = '0' ∨ c = '1' := by
  decide

/-! ## The claims -/

/-- C1: evaluating the Formatter at the byte `0x80` (value 128): the hex
token is `FFFFFF80` and parses to 4294967168, not 128, and the decimal
token is `-128` and parses to `-128`, not 128 — the `char` is
sign-extended before formatting, contradicting the claim that every
byte is treated as unsigned 0-255 in the hex and decimal rows.  Only
the binary token parses back to 128. -/
theorem hex_dec_tokens_sign_extend_at_byte_128 :
    hexToken 128 = "FFFFFF80" ∧ parseHexTok (hexToken 128) = some 4294967168 ∧
    decToken 128 = "    -128" ∧ parseDecTok (decToken 128) = some (-128) ∧
    parseBinTok (binToken 128) = some 128 ∧
    parseHexTok (hexToken 128) ≠ some 128 ∧
    parseDecTok (decToken 128) ≠ some 128 := by
  decide

/-- C2 counterexample: invoked with the two positional arguments `a`
and `b`, the program does not emit the usage error: it dispatches to
the Formatter on `a` and exits with code 0, not 1. -/
theorem two_args_no_usage_error :
    dispatch [[97], [98]] = Action.analyze [97] ∧ (run [[97], [98]]).2 = 0 ∧
    ¬ (run [[97], [98]]).2 = 1 := by
  decide

/-- C2 amended: with zero positional arguments the program prints the
usage error, returns exit code 1 and the Formatter is never invoked;
with two or more arguments it behaves exactly as if only the first had
been supplied. -/
theorem usage_error_only_zero_args :
    run [] = ("Please pass an argument\n", 1) ∧ dispatch [] = Action.usage ∧
    ∀ a rest, run (a :: rest) = run [a] :=
  ⟨rfl, rfl, fun _ _ => rfl⟩

/-- C3 counterexample: for the input `Hi` the binary row is
`Bin:\t01001000\t01101001` — the 8-digit groups are each preceded by a
tab and the row contains no space character at all, so no single
separating space stands between the bytes. -/
theorem bin_row_space_free :
    rowString "Bin:" (binTokens [72, 105]) = "Bin:\t01001000\t01101001" ∧
    ' ' ∉ (rowString "Bin:" (binTokens [72, 105])).toList := by
  decide

/-- C3 amended: every byte of the input renders exactly 8 binary
digits, zero-padded to 8, most significant bit first, and each 8-digit
group is preceded by a single tab character — the separator between
bytes is a tab, not a space, and a tab also precedes the first group. -/
theorem bin_row_tab_separated (s : List Nat) (h0 : 0 ∉ s) (hb : ∀ b ∈ s, b < 256) :
    rowString "Bin:" (binTokens s) =
      "Bin:" ++ String.join (s.map (fun b => "\t" ++ binToken b)) ∧
    ∀ b ∈ s, binToken b =
      String.mk ((List.range 8).map (fun i => if Nat.testBit b (7 - i) then '1' else '0')) := by
  constructor
  · simp [rowString, binTokens, cstr_eq_self s h0, Function.comp_def]
  · intro b hbs
    exact binToken_eq_bits b (hb b hbs)

/-- Witness for C3 amended at the input `Hi`. -/
theorem bin_row_tab_separated_witness :
    rowString "Bin:" (binTokens [72, 105]) =
      "Bin:" ++ String.join (([72, 105] : List Nat).map (fun b => "\t" ++ binToken b)) ∧
    ∀ b ∈ ([72, 105] : List Nat), binToken b =
      String.mk ((List.range 8).map (fun i => if Nat.testBit b (7 - i) then '1' else '0')) :=
  bin_row_tab_separated [72, 105] (by decide) (by decide)

/-- C4: for every NUL-free byte sequence of length N, the hex row and
the decimal row carry exactly N tokens each, and the binary row exactly
N groups, every group being 8 binary digits. -/
theorem row_token_counts (s : List Nat) (h0 : 0 ∉ s) (hb : ∀ b ∈ s, b < 256) :
    (hexTokens s).length = s.length ∧ (decTokens s).length = s.length ∧
    (binTokens s).length = s.length ∧
    ∀ t ∈ binTokens s, t.toList.length = 8 ∧ ∀ c ∈ t.toList, c = '0' ∨ c = '1' := by
  have hc := cstr_eq_self s h0
  refine ⟨by simp [hexTokens, hc], by simp [decTokens, hc], by simp [binTokens, hc], ?_⟩
  intro t ht
  rcases List.mem_map.1 (by simpa [binTokens, hc] using ht) with ⟨b, hbs, rfl⟩
  exact binToken_digits b (hb b hbs)

/-- Witness for C4 at the input `Hi`. -/
theorem row_token_counts_witness :
    (hexTokens [72, 105]).length = ([72, 105] : List Nat).length ∧
    (decTokens [72, 105]).length = ([72, 105] : List Nat).length ∧
    (binTokens [72, 105]).length = ([72, 105] : List Nat).length ∧
    ∀ t ∈ binTokens [72, 105], t.toList.length = 8 ∧ ∀ c ∈ t.toList, c = '0' ∨ c = '1' :=
  row_token_counts [72, 105] (by decide) (by decide)

/-- C5: on the empty string the program succeeds with exit code 0 and
each of the four rows reduces to its label followed by the line
terminator: every row holds zero per-byte tokens. -/
theorem empty_input_wellformed :
    run [[]] = ("Input string: \"\"\nASCII:\nHex:\nDec:\nBin:\n", 0) ∧
    asciiTokens [] = [] ∧ hexTokens [] = [] ∧ decTokens [] = [] ∧
    binTokens [] = [] := by
  decide

/-- C6: a single argument equal to `-h` or `--help` prints the static
help text, exits with code 0, and dispatches to the help action, so the
Formatter is never invoked and no analysis rows are printed. -/
theorem help_flag_behavior (a : List Nat) (h : a = hFlagB ∨ a = helpFlagB) :
    run [a] = (helpText, 0) ∧ dispatch [a] = Action.help := by
  rcases h with h | h <;> subst h <;> exact ⟨rfl, rfl⟩

/-- Witness for C6 at `-h`. -/
theorem help_flag_behavior_witness :
    run [hFlagB] = (helpText, 0) ∧ dispatch [hFlagB] = Action.help :=
  help_flag_behavior hFlagB (Or.inl rfl)

/-- C7: the round trip fails at the byte `0xC8` (value 200): the hex
token parses to 4294967240, the decimal token to `-56`, the binary
token to 200 — three pairwise different values, because hex and decimal
sign-extend the `char` while the binary loop masks each bit. -/
theorem roundtrip_fails_at_byte_200 :
    parseHexTok (hexToken 200) = some 4294967240 ∧
    parseDecTok (decToken 200) = some (-56) ∧
    parseBinTok (binToken 200) = some 200 ∧
    ¬ (parseHexTok (hexToken 200)).map (fun n => (n : Int)) = parseDecTok (decToken 200) ∧
    ¬ parseDecTok (decToken 200) = (parseBinTok (binToken 200)).map (fun n => (n : Int)) := by
  decide

/-- C8: the program is a pure function of its argument vector: two runs
on identical arguments produce the identical output text and exit code. -/
theorem run_deterministic (a1 a2 : List (List Nat)) (h : a1 = a2) :
    (run a1).1 = (run a2).1 ∧ (run a1).2 = (run a2).2 := by
  subst h
  exact ⟨rfl, rfl⟩

/-- Witness for C8 at the argument vector holding `Hi`. -/
theorem run_deterministic_witness :
    (run [[72, 105]]).1 = (run [[72, 105]]).1 ∧
    (run [[72, 105]]).2 = (run [[72, 105]]).2 :=
  run_deterministic [[72, 105]] [[72, 105]] rfl

/-- C9: with two or more arguments whose first is not one of the four
flag spellings, the program behaves exactly as with the first argument
alone: the extra arguments never influence the output, the Formatter
runs on the first argument, and the exit code is 0. -/
theorem extra_args_ignored (a : List Nat) (rest : List (List Nat))
    (h1 : ¬(a = hFlagB ∨ a = helpFlagB)) (h2 : ¬(a = vFlagB ∨ a = versionFlagB)) :
    run (a :: rest) = run [a] ∧ dispatch (a :: rest) = Action.analyze a ∧
    (run (a :: rest)).2 = 0 := by
  have hd : dispatch (a :: rest) = Action.analyze a := by
    simp only [dispatch]
    rw [if_neg h1, if_neg h2]
  exact ⟨rfl, hd, by simp [run, hd, exec]⟩

/-- Witness for C9 at the arguments `a b`. -/
theorem extra_args_ignored_witness :
    run [[97], [98]] = run [[97]] ∧ dispatch [[97], [98]] = Action.analyze [97] ∧
    (run [[97], [98]]).2 = 0 :=
  extra_args_ignored [97] [[98]] (by decide) (by decide)

/-- C10: the Formatter measures the input with `strlen`, so a buffer
`xs ++ 0 :: ys` renders exactly the tokens of `xs`: a zero byte never
produces a token in any row, and every byte the Formatter processes
lies in 1-255. -/
theorem strlen_truncates_at_nul (xs ys : List Nat) (h0 : 0 ∉ xs) (hb : ∀ b ∈ xs, b < 256) :
    print_character_analysis (xs ++ 0 :: ys) = print_character_analysis xs ∧
    hexTokens (xs ++ 0 :: ys) = xs.map hexToken ∧
    decTokens (xs ++ 0 :: ys) = xs.map decToken ∧
    binTokens (xs ++ 0 :: ys) = xs.map binToken ∧
    asciiTokens (xs ++ 0 :: ys) = xs.map asciiToken ∧
    ∀ b ∈ cstr (xs ++ 0 :: ys), 1 ≤ b ∧ b ≤ 255 := by
  have hc : cstr (xs ++ 0 :: ys) = xs := cstr_append_zero xs ys h0
  have hs : cstr xs = xs := cstr_eq_self xs h0
  refine ⟨?_, by simp [hexTokens, hc, hs], by simp [decTokens, hc, hs],
    by simp [binTokens, hc, hs], by simp [asciiTokens, hc, hs], ?_⟩
  · simp [print_character_analysis, asciiTokens, hexTokens, decTokens, binTokens, hc, hs]
  · intro b hbs
    rw [hc] at hbs
    have h1 : b ≠ 0 := fun e => h0 (e ▸ hbs)
    have h2 : b < 256 := hb b hbs
    exact ⟨by omega, by omega⟩

/-- Witness for C10 at the buffer `H\0i`. -/
theorem strlen_truncates_at_nul_witness :
    print_character_analysis ([72] ++ 0 :: [105]) = print_character_analysis [72] ∧
    hexTokens ([72] ++ 0 :: [105]) = ([72] : List Nat).map hexToken ∧
    decTokens ([72] ++ 0 :: [105]) = ([72] : List Nat).map decToken ∧
    binTokens ([72] ++ 0 :: [105]) = ([72] : List Nat).map binToken ∧
    asciiTokens ([72] ++ 0 :: [105]) = ([72] : List Nat).map asciiToken ∧
    ∀ b ∈ cstr ([72] ++ 0 :: [105]), 1 ≤ b ∧ b ≤ 255 :=
  strlen_truncates_at_nul [72] [105] (by decide) (by decide)

end StringInspect
